import Mathlib

/-!
# Verification of the stitch webhook ingestion engine

Shallow embedding of the stitch server (Rust) into Lean 4:

* `src/server/src/adapters/db.rs` — persistent `streams` table and its SQL
  operations (`start_stream`, `update_stream`, `end_stream`), modelled as pure
  functions over a list of rows;
* `src/server/src/adapters/webhook.rs` — webhook verification (`verify`),
  message dispatch (`handle_message`), the online/update/offline handlers and
  the offline tally (`tally_categories`);
* `src/server/src/adapters/twitch.rs` — the subscription reconciler
  (`TwitchAPI::sync`), modelled as the plan of deletes/creates it issues;
* `src/server/src/utils/ttl_set.rs` — the TTL-keyed recent-message set.

Timestamps are modelled as `Int` seconds; maps (`DashMap`, `HashMap`) as
association lists; external collaborators (Twitch REST, Discord, RFC 3339
parsing, HMAC-SHA256) as function-valued environment parameters.
-/

set_option autoImplicit false

namespace Stitch

/-! ## Association-list helpers (model for `DashMap` / `HashMap`) -/

/-- First value stored under key `k`, if any (keys are unique in all maps we
build, since `setKey` overwrites in place). -/
def alookup {κ α : Type} [DecidableEq κ] : List (κ × α) → κ → Option α
  | [], _ => none
  | (k', v) :: rest, k => if k' = k then some v else alookup rest k

/-- Insert-or-overwrite, as `HashMap::insert` / `DashMap::insert`: an existing
entry for the key is replaced in place, a new key is appended. -/
def setKey {κ α : Type} [DecidableEq κ] : List (κ × α) → κ → α → List (κ × α)
  | [], k, v => [(k, v)]
  | (k', v') :: rest, k, v =>
    if k' = k then (k', v) :: rest else (k', v') :: setKey rest k v

/-- Remove the entry for key `k`, as `DashMap::remove`. -/
def removeKey {κ α : Type} [DecidableEq κ] : List (κ × α) → κ → List (κ × α)
  | [], _ => []
  | (k', v') :: rest, k =>
    if k' = k then rest else (k', v') :: removeKey rest k

@[simp] theorem alookup_nil {κ α : Type} [DecidableEq κ] (k : κ) :
    alookup ([] : List (κ × α)) k = none := rfl

@[simp] theorem alookup_cons {κ α : Type} [DecidableEq κ] (k' : κ) (v : α)
    (rest : List (κ × α)) (k : κ) :
    alookup ((k', v) :: rest) k = if k' = k then some v else alookup rest k := rfl

theorem alookup_setKey_self {κ α : Type} [DecidableEq κ]
    (m : List (κ × α)) (k : κ) (v : α) : alookup (setKey m k v) k = some v := by
  induction m with
  | nil => simp [setKey]
  | cons p rest ih =>
    obtain ⟨k', v'⟩ := p
    by_cases h : k' = k <;> simp [setKey, h, ih]

theorem alookup_setKey_ne {κ α : Type} [DecidableEq κ]
    (m : List (κ × α)) (k k' : κ) (v : α) (hne : k ≠ k') :
    alookup (setKey m k v) k' = alookup m k' := by
  induction m with
  | nil => simp [setKey, hne]
  | cons p rest ih =>
    obtain ⟨k₀, v₀⟩ := p
    by_cases h : k₀ = k
    · subst h
      simp [setKey, hne]
    · simp only [setKey, if_neg h, alookup_cons, ih]

theorem alookup_mem {κ α : Type} [DecidableEq κ]
    {m : List (κ × α)} {k : κ} {v : α} (h : alookup m k = some v) : (k, v) ∈ m := by
  induction m with
  | nil => simp [alookup] at h
  | cons p rest ih =>
    obtain ⟨k', v'⟩ := p
    by_cases hk : k' = k
    · subst hk
      simp [alookup] at h
      simp [h]
    · simp only [alookup_cons, if_neg hk] at h
      exact List.mem_cons_of_mem _ (ih h)

/-! ## Update events and the offline tally (`webhook.rs::tally_categories`) -/

/-- `db::UpdateEvent { title, category, timestamp }`; the timestamp is seconds
since the epoch. -/
structure UpdateEvent where
  title : String
  category : String
  timestamp : Int
  deriving DecidableEq, Repr, Inhabited

/-- The consecutive pairs walked by `events.windows(2)`. -/
def windows2 {α : Type} (l : List α) : List (α × α) := l.zip l.tail

/-- `curr.timestamp.signed_duration_since(prev.timestamp).num_seconds() as u64`:
the (possibly negative) difference in seconds, wrapped modulo `2^64` by the
`as u64` cast. -/
def elapsedU64 (prev curr : UpdateEvent) : Nat :=
  ((curr.timestamp - prev.timestamp) % (2 ^ 64 : Int)).toNat

/-- `*map.entry(key).or_insert(0) += v` on a `HashMap` modelled as an
association list: add to the existing tally, or append a new entry. -/
def bump : List (String × Nat) → String → Nat → List (String × Nat)
  | [], k, v => [(k, v)]
  | (k', v') :: rest, k, v =>
    if k' = k then (k', v' + v) :: rest else (k', v') :: bump rest k v

/-- The single loop of `tally_categories`, accumulating the `titles` and
`categories` maps over the pairwise windows. -/
def tallyMaps (events : List UpdateEvent) :
    List (String × Nat) × List (String × Nat) :=
  (windows2 events).foldl
    (fun ms w =>
      (bump ms.1 w.1.title (elapsedU64 w.1 w.2),
       bump ms.2 w.1.category (elapsedU64 w.1 w.2)))
    ([], [])

/-- An entry of maximal value, as `titles.iter().max_by_key(count)` (the Rust
iteration order over a `HashMap` is unspecified; we deterministically keep the
earliest maximal entry, which realises one admissible order). -/
def maxEntry : List (String × Nat) → Option (String × Nat)
  | [] => none
  | (k, v) :: rest =>
    match maxEntry rest with
    | none => some (k, v)
    | some (k', v') => if v < v' then some (k', v') else some (k, v)

/-- `webhook.rs::tally_categories`. Returns `none` exactly where the Rust
function panics (the `.unwrap()` on the max over an empty `titles` map). -/
def tally_categories (events : List UpdateEvent) :
    Option (String × List (String × Nat)) :=
  let ms := tallyMaps events
  (maxEntry ms.1).map (fun e => (e.1, ms.2))

/-! ## Persistent `streams` table (`db.rs`) -/

/-- A row of the `streams` table (`db::Stream`, minus the serial `id` column,
which nothing in the engine reads). `ended_at = none` models SQL `NULL`. -/
structure DbStream where
  stream_id : String
  channel_id : String
  title : String
  started_at : Int
  last_updated : Int
  message_id : Int
  ended_at : Option Int
  events : List UpdateEvent
  deriving DecidableEq, Repr, Inhabited

/-- The `streams` table: rows in insertion order. -/
abbrev Db := List DbStream

/-- `db::start_stream`: `INSERT INTO streams ... events = [{title, category,
timestamp}]` — note both `started_at`, `last_updated` and the initial event's
timestamp are the `timestamp` argument (the caller passes
`stream.started_at`). -/
def start_stream (db : Db) (stream_id channel_id title category : String)
    (message_id : Int) (timestamp : Int) : Db :=
  db ++ [{ stream_id := stream_id, channel_id := channel_id, title := title,
           started_at := timestamp, last_updated := timestamp,
           message_id := message_id, ended_at := none,
           events := [⟨title, category, timestamp⟩] }]

/-- `db::update_stream`: `UPDATE streams SET title = $1, events = events ||
$2::jsonb WHERE stream_id = $3`. -/
def update_stream (db : Db) (stream_id title : String) (event : UpdateEvent) : Db :=
  db.map fun r =>
    if r.stream_id = stream_id then
      { r with title := title, events := r.events ++ [event] }
    else r

/-- The per-row effect of `db::end_stream`'s `UPDATE`. -/
def endStreamRow (stream_id title : String) (ended_at : Int) (r : DbStream) :
    DbStream :=
  if r.stream_id = stream_id ∧ r.ended_at = none then
    { r with ended_at := some ended_at, title := title }
  else r

/-- `db::end_stream`: `UPDATE streams SET ended_at = $1, title = $2 WHERE
stream_id = $3 AND ended_at IS NULL`. -/
def end_stream (db : Db) (stream_id title : String) (ended_at : Int) : Db :=
  db.map (endStreamRow stream_id title ended_at)

/-! ## Runtime engine state (`webhook.rs`) -/

/-- `db::Channel` as held in the in-memory channel table (timestamps dropped:
nothing in the engine reads them). -/
structure Channel where
  name : String
  display_name : String
  channel_id : String
  deriving DecidableEq, Repr, Inhabited

/-- The in-memory `webhook::Stream` runtime record. -/
structure RtStream where
  id : String
  channel_id : String
  user_login : String
  user_name : String
  title : String
  category : String
  events : List UpdateEvent
  started_at : Int
  last_updated : Int
  message_id : Int
  profile_image_url : String
  deriving DecidableEq, Repr, Inhabited

/-- `twitch::TwitchChannel` (the `helix/users` profile). -/
structure TwitchChannel where
  id : String
  login : String
  display_name : String
  profile_image_url : String
  deriving DecidableEq, Repr, Inhabited

/-- `twitch::TwitchStream` (the `helix/streams` object), fields the engine
reads. -/
structure TwitchStream where
  id : String
  user_id : String
  game_name : String
  title : String
  started_at : Int
  deriving DecidableEq, Repr, Inhabited

/-- External collaborators of the online handler: the Twitch REST lookups
(`none` = request failed / empty response) and the Discord message id the next
`send_message` returns. -/
structure Env where
  getChannel : String → Option TwitchChannel
  getStream : String → Option TwitchStream
  freshMessageId : Int

/-- Mutable state of `TwitchWebhook`: the in-memory channel table, the runtime
stream table (both `DashMap`s keyed by `channel_id`) and the persistent
`streams` table reached through the pool. -/
structure EngineState where
  channels : List (String × Channel)
  streams : List (String × RtStream)
  db : Db
  deriving Repr

/-- Observable side effects of a handler, in issue order. -/
inductive Effect where
  | chatSend (message_id : Int)
  | chatEdit (message_id : Int)
  | chatDelete (message_id : Int)
  | dbUpdateChannel (channel_id : String)
  | dbStartStream (stream_id : String)
  | dbUpdateStream (stream_id : String)
  | dbEndStream (stream_id : String)
  deriving DecidableEq, Repr

/-- The webhook error kinds (`webhook.rs::WebhookError`), payload strings
dropped. -/
inductive WebhookError where
  | verificationFailed
  | duplicateMessageId
  | badPayload
  | missingHeader
  | invalidHeaderValue
  | unknownMessageType
  | internalServerError
  | databaseError
  deriving DecidableEq, Repr

/-- `WebhookError::status`. -/
def WebhookError.status : WebhookError → Nat
  | .verificationFailed => 403
  | .badPayload | .missingHeader | .invalidHeaderValue | .unknownMessageType => 400
  | .duplicateMessageId => 204
  | .internalServerError | .databaseError => 500

/-- The response body chosen by `IntoResponse for WebhookError`: empty for
duplicates and verification failures, the fixed text for 500s, and the
`Display` rendering (a short message, abstracted here) otherwise. -/
def WebhookError.body : WebhookError → String
  | .internalServerError | .databaseError => "Internal Server Error"
  | .duplicateMessageId | .verificationFailed => ""
  | .badPayload => "Bad payload"
  | .missingHeader => "Missing header"
  | .invalidHeaderValue => "Invalid header value"
  | .unknownMessageType => "Unknown message type"

/-! ## Stream lifecycle handlers (`webhook.rs`) -/

/-- Stable insertion into a list sorted by timestamp: an element is placed
after all existing elements with an equal key, as Rust's stable
`sort_by_key`. -/
def insertByTs (e : UpdateEvent) : List UpdateEvent → List UpdateEvent
  | [] => [e]
  | x :: xs =>
    if e.timestamp < x.timestamp then e :: x :: xs else x :: insertByTs e xs

/-- `events.sort_by_key(|e| e.timestamp)` — a stable sort by timestamp. -/
def sortByTs (l : List UpdateEvent) : List UpdateEvent :=
  l.foldl (fun acc e => insertByTs e acc) []

/-- `TwitchWebhook::handle_stream_online`. `streamArg` is the pre-fetched
stream (bootstrap / track path), `preload` the stored row (bootstrap path),
`ts` the verification timestamp. `.error` models the handler returning `Err`;
silent early exits return the state unchanged with no effects. -/
def handle_stream_online (env : Env) (st : EngineState) (user_id : String)
    (streamArg : Option TwitchStream) (preload : Option DbStream) (ts : Int) :
    Except WebhookError (EngineState × List Effect) :=
  let fetched : Except WebhookError (Option (TwitchChannel × TwitchStream)) :=
    match streamArg with
    | some s =>
      match env.getChannel user_id with
      | none => .error .internalServerError
      | some ch => .ok (some (ch, s))
    | none =>
      match env.getChannel user_id, env.getStream user_id with
      | none, _ => .error .internalServerError
      | some _, none => .ok none
      | some ch, some s => .ok (some (ch, s))
  match fetched with
  | .error e => .error e
  | .ok none => .ok (st, [])
  | .ok (some (ch, s)) =>
    if (alookup st.streams ch.id).isSome then .ok (st, [])
    else
      match alookup st.channels ch.id with
      | none => .ok (st, [])
      | some stored =>
        let drift := ch.login ≠ stored.name ∨ ch.display_name ≠ stored.display_name
        let stored' : Channel :=
          { stored with name := ch.login, display_name := ch.display_name }
        let st1 : EngineState :=
          if drift then { st with channels := setKey st.channels ch.id stored' }
          else st
        let eff1 : List Effect := if drift then [.dbUpdateChannel ch.id] else []
        let mid : Int :=
          match preload with
          | some p => p.message_id
          | none => env.freshMessageId
        let eff2 : List Effect :=
          match preload with
          | some _ => []
          | none => [.chatSend env.freshMessageId]
        let evs0 : List UpdateEvent :=
          match preload with
          | some p => p.events
          | none => [⟨s.title, s.game_name, ts⟩]
        let rt : RtStream :=
          { id := s.id, channel_id := ch.id, user_login := ch.login,
            user_name := ch.display_name, title := s.title,
            category := s.game_name, started_at := s.started_at,
            last_updated := s.started_at, events := evs0,
            message_id := mid, profile_image_url := ch.profile_image_url }
        let st2 : EngineState := { st1 with streams := setKey st1.streams ch.id rt }
        match preload with
        | some _ => .ok (st2, eff1 ++ eff2)
        | none =>
          .ok ({ st2 with
                   db := start_stream st2.db s.id ch.id s.title s.game_name mid
                     s.started_at },
               eff1 ++ eff2 ++ [.dbStartStream s.id])

/-- `TwitchWebhook::handle_channel_update` for an event
`{broadcaster_user_id := user_id, title, category_name := category}` at the
verification timestamp `ts`. -/
def handle_channel_update (st : EngineState) (user_id title category : String)
    (ts : Int) : EngineState × List Effect :=
  match alookup st.streams user_id with
  | none => (st, [])
  | some rt =>
    let ev : UpdateEvent := ⟨title, category, ts⟩
    let rt' : RtStream :=
      { rt with
        title := title, category := category,
        last_updated := ts, events := rt.events ++ [ev] }
    ({ st with
       streams := setKey st.streams user_id rt',
       db := update_stream st.db rt.id title ev },
     [.dbUpdateStream rt.id, .chatEdit rt.message_id])

/-- `TwitchWebhook::handle_stream_offline` for
`{broadcaster_user_id := user_id}` at the verification timestamp `ts`.
Returns `none` exactly where the Rust code would panic (the `.unwrap()` inside
`tally_categories`). -/
def handle_stream_offline (st : EngineState) (user_id : String) (ts : Int) :
    Option (EngineState × List Effect) :=
  match alookup st.streams user_id with
  | none => some (st, [])
  | some rt =>
    let st0 : EngineState := { st with streams := removeKey st.streams user_id }
    if rt.events = [] then some (st0, [])
    else
      let evs := sortByTs (rt.events ++ [⟨rt.title, rt.category, ts⟩])
      match tally_categories evs with
      | none => none
      | some (title, _) =>
        some ({ st0 with db := end_stream st0.db rt.id title ts },
              [.chatEdit rt.message_id, .dbEndStream rt.id])

/-- Sequential processing of `channel.update` deliveries
`(title, category, timestamp)`, accumulating effects. -/
def runUpdates (st : EngineState) (user_id : String)
    (updates : List (String × String × Int)) : EngineState × List Effect :=
  updates.foldl
    (fun acc u =>
      let r := handle_channel_update acc.1 user_id u.1 u.2.1 u.2.2
      (r.1, acc.2 ++ r.2))
    (st, [])

/-! ## Recent-message TTL set (`utils/ttl_set.rs`) -/

namespace TtlSet

/-- The `TtlSet` contents: each key maps to its expiration instant
(`Instant::now() + ttl`, in seconds). -/
abbrev St := List (String × Int)

/-- `TtlSet::insert` exactly as written in `ttl_set.rs`: it computes
`expiration = now + ttl` and stores it unconditionally, returning nothing.
(`now` is the current instant.) -/
def insert (map : St) (key : String) (ttl now : Int) : St :=
  setKey map key (now + ttl)

/-- `TtlSet::contains` as written in `ttl_set.rs`: fresh iff an entry exists
with expiration strictly after `now`; a stale entry is removed as a side
effect. Returns `(is_fresh, updated map)`. -/
def contains (map : St) (key : String) (now : Int) : Bool × St :=
  match alookup map key with
  | some exp => if now < exp then (true, map) else (false, removeKey map key)
  | none => (false, map)

/-- `key` is currently fresh: present with an unexpired ttl. -/
def fresh (map : St) (key : String) (now : Int) : Bool :=
  match alookup map key with
  | some exp => now < exp
  | none => false

/-- Modelled from the spec: the `insert(key, ttl) → bool` primitive
(`§4.2`: "`true` on first insertion or after expiry and `false` if the key is
currently fresh"). It is missing from `src/`: `ttl_set.rs` defines only the
unit-returning `insert` above and `contains`, while its caller
`webhook.rs::verify` negates `insert`'s return value, so the bool-returning
form is what the caller requires. Freshness and storage follow `contains` and
`insert` from the source. -/
def insertB (map : St) (key : String) (ttl now : Int) : Bool × St :=
  if fresh map key now then (false, map) else (true, insert map key ttl now)

end TtlSet

/-! ## Webhook verification and dispatch (`webhook.rs`) -/

/-- The four `Twitch-Eventsub-*` headers of interest; `none` models a missing
header (non-ASCII values, which fail `to_str`, are not distinguished from
missing ones — both claims treat only the presence path). -/
structure Headers where
  signature : Option String
  timestamp : Option String
  messageId : Option String
  msgType : Option String

/-- External collaborators of `verify`: `chrono`'s RFC 3339 parser (seconds
since epoch, `none` = parse error) and the hex-decode + constant-time
HMAC-SHA256 comparison (arguments: the hex signature after the `sha256=`
prefix, and `message_id ++ timestamp ++ body`; `false` covers both invalid hex
and digest mismatch, which raise the same `VerificationFailed` error). -/
structure VerifyEnv where
  parseTs : String → Option Int
  sigOk : String → String → Bool

/-- Strip the leading `"sha256="` marker, as
`raw_signature.strip_prefix(SIGNATURE_PREFIX)` (`none` when the header does
not begin with it). Stated over the underlying character lists so that it
evaluates by `decide`. -/
def stripSigMarker (s : String) : Option String :=
  if List.isPrefixOf "sha256=".data s.data then some ⟨s.data.drop 7⟩ else none

/-- The part of `TwitchWebhook::verify` after the replay check: RFC 3339
parse, timestamp window, HMAC check — in source order. (The recent-message
set is not touched past the replay check, so it is factored out.) -/
def verifyChecks (env : VerifyEnv) (rawSignature messageId timestampStr : String)
    (body : String) (now : Int) : Except WebhookError Int :=
  match env.parseTs timestampStr with
  | none => .error .invalidHeaderValue
  | some ts =>
    let age := now - ts
    if age > 600 then .error .verificationFailed
    else if age < -180 then .error .verificationFailed
    else
      match stripSigMarker rawSignature with
      | none => .error .verificationFailed
      | some hexSig =>
        if env.sigOk hexSig (messageId ++ timestampStr ++ body) then .ok ts
        else .error .verificationFailed

/-- `TwitchWebhook::verify`: header extraction, replay check (10-minute TTL),
then `verifyChecks` — in source order. Returns the verification outcome
together with the updated recent-message set. -/
def verify (env : VerifyEnv) (recent : TtlSet.St) (now : Int) (h : Headers)
    (body : String) : Except WebhookError Int × TtlSet.St :=
  match h.signature with
  | none => (.error .missingHeader, recent)
  | some rawSignature =>
  match h.timestamp with
  | none => (.error .missingHeader, recent)
  | some timestampStr =>
  match h.messageId with
  | none => (.error .missingHeader, recent)
  | some messageId =>
    let ins := TtlSet.insertB recent messageId (10 * 60) now
    if ¬ ins.1 then (.error .duplicateMessageId, ins.2)
    else (verifyChecks env rawSignature messageId timestampStr body now, ins.2)

/-- An event handler invocation decided by `handle_notification`:
`stream.online` is spawned into the task set, the other two run inline. -/
inductive Dispatch where
  | spawnOnline (user_id : String) (ts : Int)
  | runOffline (user_id : String) (ts : Int)
  | runUpdate (user_id title category : String) (ts : Int)
  deriving DecidableEq, Repr

/-- External JSON decoding (`serde_json`) of the request body: the challenge
payload, the subscription type, and the three event payloads. `none` models a
parse error (`BadPayload`). -/
structure BodyEnv where
  parseChallenge : String → Option String
  parseKind : String → Option String
  parseOnline : String → Option String
  parseOffline : String → Option String
  parseUpdate : String → Option (String × String × String)

/-- `webhook.rs::handle_message` (the single POST route) composed with
`handle_notification`: verification, then dispatch on the message type.
Returns the HTTP response `(status, body)`, the updated recent-message set,
and the handler invocations issued (the engine state is only touched through
these). -/
def handle_message (venv : VerifyEnv) (benv : BodyEnv) (recent : TtlSet.St)
    (now : Int) (h : Headers) (body : String) :
    (Nat × String) × TtlSet.St × List Dispatch :=
  match verify venv recent now h body with
  | (.error e, recent') => ((e.status, e.body), recent', [])
  | (.ok ts, recent') =>
    match h.msgType with
    | none => ((WebhookError.missingHeader.status, WebhookError.missingHeader.body),
               recent', [])
    | some t =>
      if t = "webhook_callback_verification" then
        match benv.parseChallenge body with
        | none => ((WebhookError.badPayload.status, WebhookError.badPayload.body),
                   recent', [])
        | some c => ((200, c), recent', [])
      else if t = "notification" then
        match benv.parseKind body with
        | none => ((WebhookError.badPayload.status, WebhookError.badPayload.body),
                   recent', [])
        | some k =>
          if k = "stream.online" then
            match benv.parseOnline body with
            | none => ((WebhookError.badPayload.status, WebhookError.badPayload.body),
                       recent', [])
            | some uid => ((204, ""), recent', [.spawnOnline uid ts])
          else if k = "stream.offline" then
            match benv.parseOffline body with
            | none => ((WebhookError.badPayload.status, WebhookError.badPayload.body),
                       recent', [])
            | some uid => ((204, ""), recent', [.runOffline uid ts])
          else if k = "channel.update" then
            match benv.parseUpdate body with
            | none => ((WebhookError.badPayload.status, WebhookError.badPayload.body),
                       recent', [])
            | some u => ((204, ""), recent', [.runUpdate u.1 u.2.1 u.2.2 ts])
          else ((204, ""), recent', [])
      else ((WebhookError.unknownMessageType.status,
             WebhookError.unknownMessageType.body), recent', [])

/-- Execute the dispatched handler invocations against the engine state
(online with no pre-fetched stream and no preload, as in
`handle_notification`). `none` propagates an offline-tally panic. -/
def runDispatches (env : Env) (st : EngineState) :
    List Dispatch → Option (EngineState × List Effect)
  | [] => some (st, [])
  | d :: ds => do
    let r ←
      match d with
      | .spawnOnline uid ts =>
        match handle_stream_online env st uid none none ts with
        | .ok r => some r
        | .error _ => some (st, [])
      | .runOffline uid ts => handle_stream_offline st uid ts
      | .runUpdate uid title category ts =>
        some (handle_channel_update st uid title category ts)
    let rest ← runDispatches env r.1 ds
    pure (rest.1, r.2 ++ rest.2)

/-! ## Subscription reconciler (`twitch.rs::TwitchAPI::sync`) -/

/-- An EventSub subscription as returned by `get_subscriptions`
(`twitch::Subscription`, with `condition.broadcaster_user_id` flattened). -/
structure Subscription where
  id : String
  status : String
  kind : String
  broadcaster : String
  deriving DecidableEq, Repr

/-- The `(condition.broadcaster_user_id, type)` pair of a subscription, the
key of the reconciler's `have` map. -/
def subPair (s : Subscription) : String × String := (s.broadcaster, s.kind)

/-- The three desired event types per channel. -/
def desiredEvents : List String :=
  ["stream.online", "channel.update", "stream.offline"]

/-- The desired `(user_id, event_type)` pairs for the channel list. -/
def wantPairs (channels : List String) : List (String × String) :=
  channels.flatMap fun c => desiredEvents.map fun e => (c, e)

/-- `TwitchAPI::sync`, modelled as the plan of upstream calls it issues, in
execution order: ids of non-`"enabled"` subscriptions deleted first, then the
`(user_id, event_type)` pairs subscribed to, then the ids of enabled-but-
undesired subscriptions deleted. The `have` map mirrors the Rust
`HashMap::collect`, where a later entry for the same `(user, event)` pair
overwrites an earlier one. -/
def syncPlan (subs : List Subscription) (channels : List String) :
    List String × List (String × String) × List String :=
  let enabled := subs.filter fun s => s.status = "enabled"
  let stale := subs.filter fun s => ¬ s.status = "enabled"
  let staleDeletes := stale.map (·.id)
  let haveMap : List ((String × String) × String) :=
    enabled.foldl (fun m s => setKey m (subPair s) s.id) []
  let want := (wantPairs channels).dedup
  let add := want.filter fun e => (alookup haveMap e).isNone
  let remove := (haveMap.filter fun e => ¬ e.1 ∈ want).map (·.2)
  (staleDeletes, add, remove)

/-! ## Claim C6 — `end_stream` touches only live rows -/

/-- Claim C6: for every `stream_id`, `end_stream` sets `ended_at` and `title`
only on rows whose `ended_at` is NULL; an already-ended row is left unchanged,
so a non-null `ended_at` never reverts to null and is never overwritten. -/
theorem end_stream_only_live_rows (db : Db) (sid title : String) (ts : Int)
    (i : Nat) (r : DbStream) (hi : db[i]? = some r) :
    (r.ended_at ≠ none → (end_stream db sid title ts)[i]? = some r) ∧
    (∀ t₀, r.ended_at = some t₀ →
      ∃ r', (end_stream db sid title ts)[i]? = some r' ∧
        r'.ended_at = some t₀ ∧ r' = r) ∧
    (r.ended_at = none → r.stream_id = sid →
      (end_stream db sid title ts)[i]? =
        some { r with ended_at := some ts, title := title }) ∧
    (r.ended_at = none → r.stream_id ≠ sid →
      (end_stream db sid title ts)[i]? = some r) := by
  have hmap : (end_stream db sid title ts)[i]? =
      some (endStreamRow sid title ts r) := by
    simp [end_stream, List.getElem?_map, hi]
  refine ⟨fun hne => ?_, fun t₀ ht₀ => ?_, fun hnull hsid => ?_, fun hnull hsid => ?_⟩
  · rw [hmap]
    simp [endStreamRow, hne]
  · refine ⟨r, ?_, ht₀, rfl⟩
    rw [hmap]
    simp [endStreamRow, ht₀]
  · rw [hmap]
    simp [endStreamRow, hnull, hsid]
  · rw [hmap]
    simp [endStreamRow, hnull, hsid]

/-- Claim C6 witness: a two-row table, one already ended and one live with the
matching id; the ended row is untouched and the live row gets closed. -/
theorem end_stream_only_live_rows_witness :
    (let rowEnded : DbStream :=
      { stream_id := "s1", channel_id := "c1", title := "a", started_at := 0,
        last_updated := 0, message_id := 1, ended_at := some 5, events := [] }
     let db : Db := [rowEnded]
     db[0]? = some rowEnded ∧
     (rowEnded.ended_at ≠ none → (end_stream db "s1" "b" 9)[0]? = some rowEnded)) := by
  refine ⟨rfl, ?_⟩
  exact (end_stream_only_live_rows [_] "s1" "b" 9 0 _ rfl).1

/-! ## Claim C4 — `TtlSet::insert` returns no boolean (code bug) -/

/-- Claim C4 (code bug): the claim says `TtlSet::insert(key, ttl)` returns a
boolean — `true` on first insertion or after expiry, `false` while fresh. The
`insert` in `ttl_set.rs` returns nothing and unconditionally overwrites the
expiry; its own caller (`webhook.rs::verify` applies `!` to the returned
value) requires the boolean form, so the crate as written does not type-check.
Evaluating the actual code at the failing input: the key `"m1"` inserted at
time 0 with ttl 600 is still fresh at time 60, yet a second `insert` merely
refreshes the expiry to 660 — no boolean is produced. -/
theorem ttl_insert_returns_no_bool_at_failing_input :
    TtlSet.fresh (TtlSet.insert [] "m1" 600 0) "m1" 60 = true ∧
    TtlSet.insert (TtlSet.insert [] "m1" 600 0) "m1" 600 60 = [("m1", 660)] := by
  constructor
  · rfl
  · rfl

/-! ## Shared facts about `verify` -/

/-- A fresh (duplicate) message id short-circuits `verify` with
`DuplicateMessageId` and leaves the recent-message set unchanged. -/
theorem verify_duplicate_of_fresh (venv : VerifyEnv) (recent : TtlSet.St)
    (now : Int) (h : Headers) (body sig tsStr mid : String)
    (hs : h.signature = some sig) (ht : h.timestamp = some tsStr)
    (hm : h.messageId = some mid)
    (hfresh : TtlSet.fresh recent mid now = true) :
    verify venv recent now h body = (.error .duplicateMessageId, recent) := by
  simp [verify, hs, ht, hm, TtlSet.insertB, hfresh]

/-- When the message id is not fresh, `verify` records it with a 10-minute
expiry no matter how the rest of the checks turn out. -/
theorem verify_records_msgid (venv : VerifyEnv) (recent : TtlSet.St)
    (now : Int) (h : Headers) (body sig tsStr mid : String)
    (hs : h.signature = some sig) (ht : h.timestamp = some tsStr)
    (hm : h.messageId = some mid)
    (hfresh : TtlSet.fresh recent mid now = false) :
    (verify venv recent now h body).2 = setKey recent mid (now + 600) := by
  have h600 : (10 : Int) * 60 = 600 := by norm_num
  simp [verify, hs, ht, hm, TtlSet.insertB, hfresh, TtlSet.insert, h600]

/-- A duplicate message id makes `handle_message` answer 204 with an empty
body, leaves the recent-message set unchanged and dispatches nothing. -/
theorem handle_message_duplicate (venv : VerifyEnv) (benv : BodyEnv)
    (recent : TtlSet.St) (now : Int) (h : Headers) (body sig tsStr mid : String)
    (hs : h.signature = some sig) (ht : h.timestamp = some tsStr)
    (hm : h.messageId = some mid)
    (hfresh : TtlSet.fresh recent mid now = true) :
    handle_message venv benv recent now h body = ((204, ""), recent, []) := by
  simp [handle_message, verify_duplicate_of_fresh venv recent now h body sig tsStr
    mid hs ht hm hfresh, WebhookError.status, WebhookError.body]

/-! ## Claim C3 — timestamp window boundaries -/

/-- Claim C3 (amended): with the headers present, a non-duplicate message id
and a valid signature, `verify` accepts a timestamp 599 s old, accepts one
exactly 600 s old (the age check `age > 600` is strict — the claim's
"rejects exactly 600 s" is false), rejects one 601 s old, accepts one 180 s in
the future and rejects one 181 s in the future. -/
theorem verify_timestamp_window (venv : VerifyEnv) (recent : TtlSet.St)
    (now ts : Int) (h : Headers) (body sig tsStr mid hexSig : String)
    (hs : h.signature = some sig) (ht : h.timestamp = some tsStr)
    (hm : h.messageId = some mid)
    (hfresh : TtlSet.fresh recent mid now = false)
    (hparse : venv.parseTs tsStr = some ts)
    (hstrip : stripSigMarker sig = some hexSig)
    (hsig : venv.sigOk hexSig (mid ++ tsStr ++ body) = true) :
    (now - ts = 599 → (verify venv recent now h body).1 = .ok ts) ∧
    (now - ts = 600 → (verify venv recent now h body).1 = .ok ts) ∧
    (now - ts = 601 →
      (verify venv recent now h body).1 = .error .verificationFailed) ∧
    (now - ts = -180 → (verify venv recent now h body).1 = .ok ts) ∧
    (now - ts = -181 →
      (verify venv recent now h body).1 = .error .verificationFailed) := by
  have hv : (verify venv recent now h body).1 =
      verifyChecks venv sig mid tsStr body now := by
    simp [verify, hs, ht, hm, TtlSet.insertB, hfresh]
  refine ⟨fun hage => ?_, fun hage => ?_, fun hage => ?_, fun hage => ?_,
    fun hage => ?_⟩ <;>
    rw [hv] <;> simp [verifyChecks, hparse, hstrip, hsig, hage]

/-- Claim C3 amended witness: concrete boundary instance at 599 s of age. -/
theorem verify_timestamp_window_witness :
    TtlSet.fresh [] "m" 599 = false ∧
    (verify ⟨fun _ => some 0, fun _ _ => true⟩ [] 599
      ⟨some "sha256=ab", some "t", some "m", some "notification"⟩ "b").1 = .ok 0 := by
  refine ⟨rfl, ?_⟩
  exact (verify_timestamp_window ⟨fun _ => some 0, fun _ _ => true⟩ [] 599 0
    ⟨some "sha256=ab", some "t", some "m", some "notification"⟩ "b" "sha256=ab"
    "t" "m" "ab" rfl rfl rfl rfl rfl (by decide) rfl).1 rfl

/-- Claim C3 counterexample: a request whose timestamp is exactly 600 seconds
older than wall-clock now is accepted by `verify` (the code's age check is
strictly greater-than), not rejected with Forbidden as the claim states. -/
theorem verify_accepts_timestamp_exactly_600s_old :
    (verify ⟨fun _ => some 0, fun _ _ => true⟩ [] 600
      ⟨some "sha256=ab", some "t", some "m", some "notification"⟩ "b").1 = .ok 0 := by
  have hfresh : TtlSet.fresh [] "m" 600 = false := rfl
  have hstrip : stripSigMarker "sha256=ab" = some "ab" := by decide
  simp [verify, verifyChecks, TtlSet.insertB, hfresh, hstrip]

/-! ## Claim C5 — duplicate message id: 204, no side effects -/

/-- Claim C5: a webhook request whose message id is still fresh in the
recent-message set (seen within the last 10 minutes) is answered 204 with an
empty body; the recent-message set is unchanged and no handler is dispatched,
so no database write and no chat call happen for the duplicate. -/
theorem duplicate_request_no_side_effects (venv : VerifyEnv) (benv : BodyEnv)
    (env : Env) (est : EngineState) (recent : TtlSet.St) (now : Int)
    (h : Headers) (body sig tsStr mid : String)
    (hs : h.signature = some sig) (ht : h.timestamp = some tsStr)
    (hm : h.messageId = some mid)
    (hfresh : TtlSet.fresh recent mid now = true) :
    handle_message venv benv recent now h body = ((204, ""), recent, []) ∧
    runDispatches env est [] = some (est, []) :=
  ⟨handle_message_duplicate venv benv recent now h body sig tsStr mid hs ht hm
    hfresh, rfl⟩

/-- Claim C5 witness: concrete duplicate request. -/
theorem duplicate_request_no_side_effects_witness :
    (let venv : VerifyEnv := ⟨fun _ => some 0, fun _ _ => true⟩
     let benv : BodyEnv := ⟨fun _ => none, fun _ => none, fun _ => none,
       fun _ => none, fun _ => none⟩
     let env : Env := ⟨fun _ => none, fun _ => none, 7⟩
     let est : EngineState := ⟨[], [], []⟩
     let h : Headers := ⟨some "sha256=ab", some "t", some "m", some "notification"⟩
     TtlSet.fresh [("m", 100)] "m" 50 = true ∧
     handle_message venv benv [("m", 100)] 50 h "b" = ((204, ""), [("m", 100)], []) ∧
     runDispatches env est [] = some (est, [])) := by
  refine ⟨rfl, ?_⟩
  exact duplicate_request_no_side_effects _ _ _ _ [("m", 100)] 50 _ "b"
    "sha256=ab" "t" "m" rfl rfl rfl rfl

/-! ## Claim C9 — replay set recorded before the other checks -/

/-- Claim C9: the replay-set insertion happens before the timestamp and
signature checks, so any request with the three headers present and a
non-fresh message id records that id with a 10-minute expiry regardless of
how verification turns out; any later request carrying the same message id
within those 10 minutes — whatever its signature — is answered 204 as a
duplicate, with no dispatch and no further state change. -/
theorem replay_insert_precedes_checks (venv : VerifyEnv) (benv : BodyEnv)
    (recent : TtlSet.St) (now : Int) (h : Headers) (body sig tsStr mid : String)
    (hs : h.signature = some sig) (ht : h.timestamp = some tsStr)
    (hm : h.messageId = some mid)
    (hfresh : TtlSet.fresh recent mid now = false) :
    (verify venv recent now h body).2 = setKey recent mid (now + 600) ∧
    ∀ (h₂ : Headers) (body₂ sig₂ tsStr₂ : String) (now₂ : Int),
      h₂.signature = some sig₂ → h₂.timestamp = some tsStr₂ →
      h₂.messageId = some mid → now₂ < now + 600 →
      handle_message venv benv (setKey recent mid (now + 600)) now₂ h₂ body₂ =
        ((204, ""), setKey recent mid (now + 600), []) := by
  refine ⟨verify_records_msgid venv recent now h body sig tsStr mid hs ht hm
    hfresh, ?_⟩
  intro h₂ body₂ sig₂ tsStr₂ now₂ hs₂ ht₂ hm₂ hlt
  refine handle_message_duplicate venv benv _ now₂ h₂ body₂ sig₂ tsStr₂ mid
    hs₂ ht₂ hm₂ ?_
  simp [TtlSet.fresh, alookup_setKey_self, hlt]

/-- Claim C9 witness: a request with a bad signature records `"m"`; a second,
correctly signed request with the same id 30 s later is answered 204 with no
dispatch. -/
theorem replay_insert_precedes_checks_witness :
    (let venv : VerifyEnv := ⟨fun _ => some 0, fun _ s => s = "mtb"⟩
     let benv : BodyEnv := ⟨fun _ => some "c", fun _ => some "stream.online",
       fun _ => some "42", fun _ => none, fun _ => none⟩
     let bad : Headers := ⟨some "nope", some "t", some "m", some "notification"⟩
     let good : Headers := ⟨some "sha256=ab", some "t", some "m", some "notification"⟩
     TtlSet.fresh [] "m" 0 = false ∧
     (verify venv [] 0 bad "b").1 = .error .verificationFailed ∧
     (verify venv [] 0 bad "b").2 = [("m", 600)] ∧
     handle_message venv benv [("m", 600)] 30 good "b" =
       ((204, ""), [("m", 600)], [])) := by
  refine ⟨rfl, rfl, ?_, ?_⟩
  · have h1 := (replay_insert_precedes_checks
      ⟨fun _ => some 0, fun _ s => s = "mtb"⟩
      ⟨fun _ => some "c", fun _ => some "stream.online", fun _ => some "42",
        fun _ => none, fun _ => none⟩
      [] 0 ⟨some "nope", some "t", some "m", some "notification"⟩ "b"
      "nope" "t" "m" rfl rfl rfl rfl).1
    simpa using h1
  · have h2 := (replay_insert_precedes_checks
      ⟨fun _ => some 0, fun _ s => s = "mtb"⟩
      ⟨fun _ => some "c", fun _ => some "stream.online", fun _ => some "42",
        fun _ => none, fun _ => none⟩
      [] 0 ⟨some "nope", some "t", some "m", some "notification"⟩ "b"
      "nope" "t" "m" rfl rfl rfl rfl).2
      ⟨some "sha256=ab", some "t", some "m", some "notification"⟩ "b"
      "sha256=ab" "t" 30 rfl rfl rfl (by norm_num)
    simpa using h2

/-! ## Claim C8 — duplicate online is a no-op -/

/-- Claim C8: when the runtime stream table already holds an entry for the
broadcaster, `handle_stream_online` returns successfully with the state
unchanged and no effects: no chat message, no `start_stream` row, and the
existing runtime entry is not replaced. -/
theorem duplicate_online_noop (env : Env) (st : EngineState) (user_id : String)
    (ch : TwitchChannel) (streamArg : Option TwitchStream)
    (preload : Option DbStream) (ts : Int)
    (hch : env.getChannel user_id = some ch)
    (hlive : (alookup st.streams ch.id).isSome = true) :
    handle_stream_online env st user_id streamArg preload ts = .ok (st, []) := by
  cases streamArg with
  | some s => simp [handle_stream_online, hch, hlive]
  | none =>
    cases hstream : env.getStream user_id with
    | none => simp [handle_stream_online, hch, hstream]
    | some s => simp [handle_stream_online, hch, hstream, hlive]

/-- Claim C8 witness: a live runtime entry for channel `"42"` makes a second
online event a no-op. -/
theorem duplicate_online_noop_witness :
    (let ch : TwitchChannel := ⟨"42", "alice", "Alice", "img"⟩
     let rt : RtStream := ⟨"s1", "42", "alice", "Alice", "T", "G", [⟨"T", "G", 0⟩],
       0, 0, 7, "img"⟩
     let env : Env := ⟨fun _ => some ch, fun _ => none, 9⟩
     let st : EngineState := ⟨[("42", ⟨"alice", "Alice", "42"⟩)], [("42", rt)], []⟩
     env.getChannel "42" = some ch ∧
     (alookup st.streams ch.id).isSome = true ∧
     handle_stream_online env st "42" none none 5 = .ok (st, [])) := by
  refine ⟨rfl, rfl, ?_⟩
  exact duplicate_online_noop _ _ "42" _ none none 5 rfl rfl

/-! ## Facts about the tally -/

theorem foldl_pair_split {α β γ : Type} (f : β → α → β) (g : γ → α → γ) :
    ∀ (l : List α) (b : β) (c : γ),
      l.foldl (fun p a => (f p.1 a, g p.2 a)) (b, c) = (l.foldl f b, l.foldl g c)
  | [], _, _ => rfl
  | a :: l, b, c => foldl_pair_split f g l (f b a) (g c a)

/-- `tallyMaps` is the pair of independent folds over the two maps. -/
theorem tallyMaps_eq (events : List UpdateEvent) :
    tallyMaps events =
      ((windows2 events).foldl
        (fun m w => bump m w.1.title (elapsedU64 w.1 w.2)) [],
       (windows2 events).foldl
        (fun m w => bump m w.1.category (elapsedU64 w.1 w.2)) []) := by
  rw [tallyMaps]
  exact foldl_pair_split (fun m w => bump m w.1.title (elapsedU64 w.1 w.2))
    (fun m w => bump m w.1.category (elapsedU64 w.1 w.2)) (windows2 events) [] []

theorem alookup_bump (m : List (String × Nat)) (k k' : String) (v : Nat) :
    alookup (bump m k v) k' =
      if k = k' then some ((alookup m k').getD 0 + v) else alookup m k' := by
  induction m with
  | nil =>
    by_cases h : k = k' <;> simp [bump, h]
  | cons p rest ih =>
    obtain ⟨k₀, v₀⟩ := p
    by_cases h₀ : k₀ = k
    · subst h₀
      by_cases h : k₀ = k'
      · subst h
        simp [bump]
      · simp [bump, h, fun hkk : k₀ = k' => h hkk]
    · by_cases h : k₀ = k'
      · subst h
        have hne : k ≠ k₀ := fun hkk => h₀ hkk.symm
        simp [bump, h₀, hne]
      · simp [bump, h₀, h, ih]

/-- The tally value of a key after folding `bump` over the windows: present
iff the key was credited at least once (or present initially), with the summed
elapsed seconds of exactly its windows added on. -/
theorem alookup_foldl_bump (f : UpdateEvent × UpdateEvent → String)
    (g : UpdateEvent × UpdateEvent → Nat) :
    ∀ (ws : List (UpdateEvent × UpdateEvent)) (m : List (String × Nat))
      (k : String),
    alookup (ws.foldl (fun m w => bump m (f w) (g w)) m) k =
      if (∃ w ∈ ws, f w = k) ∨ (alookup m k).isSome = true
      then some ((alookup m k).getD 0 + ((ws.filter fun w => f w = k).map g).sum)
      else none := by
  intro ws
  induction ws with
  | nil =>
    intro m k
    cases h : alookup m k <;> simp [h]
  | cons w ws ih =>
    intro m k
    rw [List.foldl_cons, ih]
    by_cases hfw : f w = k
    · rw [if_pos (Or.inr (by simp [alookup_bump, hfw]))]
      rw [if_pos (Or.inl ⟨w, List.mem_cons_self w ws, hfw⟩)]
      simp [alookup_bump, hfw, List.filter_cons, Nat.add_assoc]
    · simp only [alookup_bump, if_neg hfw]
      have hmem : (∃ x ∈ w :: ws, f x = k) ↔ (∃ x ∈ ws, f x = k) := by
        constructor
        · rintro ⟨x, hx, hfx⟩
          rcases List.mem_cons.mp hx with hx' | hx'
          · exact absurd (hx' ▸ hfx) hfw
          · exact ⟨x, hx', hfx⟩
        · rintro ⟨x, hx, hfx⟩
          exact ⟨x, List.mem_cons_of_mem _ hx, hfx⟩
      rw [List.filter_cons_of_neg (by simpa using hfw)]
      by_cases hc : (∃ x ∈ ws, f x = k) ∨ (alookup m k).isSome = true
      · have hc' : (∃ x ∈ w :: ws, f x = k) ∨ (alookup m k).isSome = true := by
          rcases hc with hc | hc
          · exact Or.inl (hmem.mpr hc)
          · exact Or.inr hc
        rw [if_pos hc, if_pos hc']
      · have hc' : ¬ ((∃ x ∈ w :: ws, f x = k) ∨ (alookup m k).isSome = true) := by
          intro hcon
          rcases hcon with hcon | hcon
          · exact hc (Or.inl (hmem.mp hcon))
          · exact hc (Or.inr hcon)
        rw [if_neg hc, if_neg hc']

theorem bump_ne_nil (m : List (String × Nat)) (k : String) (v : Nat) :
    bump m k v ≠ [] := by
  cases m with
  | nil => simp [bump]
  | cons p rest =>
    obtain ⟨k₀, v₀⟩ := p
    by_cases h : k₀ = k <;> simp [bump, h]

theorem foldl_bump_ne_nil (f : UpdateEvent × UpdateEvent → String)
    (g : UpdateEvent × UpdateEvent → Nat) :
    ∀ (ws : List (UpdateEvent × UpdateEvent)) (m : List (String × Nat)),
    m ≠ [] → ws.foldl (fun m w => bump m (f w) (g w)) m ≠ []
  | [], _, hm => hm
  | w :: ws, m, _ =>
    foldl_bump_ne_nil f g ws (bump m (f w) (g w)) (bump_ne_nil m (f w) (g w))

theorem maxEntry_eq_none_iff (m : List (String × Nat)) :
    maxEntry m = none ↔ m = [] := by
  cases m with
  | nil => simp [maxEntry]
  | cons p rest =>
    obtain ⟨k, v⟩ := p
    simp only [maxEntry]
    cases maxEntry rest with
    | none => simp
    | some q =>
      obtain ⟨k', v'⟩ := q
      by_cases h : v < v' <;> simp [h]

/-- The entry returned by `maxEntry` belongs to the map and its value bounds
every value in the map. -/
theorem maxEntry_spec :
    ∀ (m : List (String × Nat)) (k : String) (v : Nat),
    maxEntry m = some (k, v) → (k, v) ∈ m ∧ ∀ p ∈ m, p.2 ≤ v := by
  intro m
  induction m with
  | nil => intro k v h; simp [maxEntry] at h
  | cons p rest ih =>
    obtain ⟨k₀, v₀⟩ := p
    intro k v h
    simp only [maxEntry] at h
    cases hrest : maxEntry rest with
    | none =>
      rw [hrest] at h
      obtain ⟨hk, hv⟩ : k₀ = k ∧ v₀ = v := by
        simpa using h
      subst hk; subst hv
      have : rest = [] := (maxEntry_eq_none_iff rest).mp hrest
      subst this
      simp
    | some q =>
      obtain ⟨k', v'⟩ := q
      rw [hrest] at h
      obtain ⟨hmem, hbound⟩ := ih k' v' hrest
      by_cases hlt : v₀ < v'
      · obtain ⟨hk, hv⟩ : k' = k ∧ v' = v := by simpa [hlt] using h
        subst hk; subst hv
        refine ⟨List.mem_cons_of_mem _ hmem, ?_⟩
        intro p hp
        rcases List.mem_cons.mp hp with hp | hp
        · subst hp; exact Nat.le_of_lt hlt
        · exact hbound p hp
      · obtain ⟨hk, hv⟩ : k₀ = k ∧ v₀ = v := by simpa [hlt] using h
        subst hk; subst hv
        refine ⟨List.mem_cons_self _ _, ?_⟩
        intro p hp
        rcases List.mem_cons.mp hp with hp | hp
        · subst hp; exact Nat.le_refl _
        · exact Nat.le_trans (hbound p hp) (Nat.le_of_not_lt hlt)

theorem windows2_nil_of_short {α : Type} (l : List α) (h : l.length < 2) :
    windows2 l = [] := by
  match l, h with
  | [], _ => rfl
  | [a], _ => rfl

theorem windows2_cons_cons {α : Type} (a b : α) (l : List α) :
    windows2 (a :: b :: l) = (a, b) :: windows2 (b :: l) := rfl

theorem windows2_ne_nil {α : Type} (l : List α) (h : 2 ≤ l.length) :
    windows2 l ≠ [] := by
  match l, h with
  | a :: b :: l, _ => simp [windows2_cons_cons]

theorem windows2_map_fst {α : Type} :
    ∀ l : List α, (windows2 l).map Prod.fst = l.dropLast
  | [] => rfl
  | [a] => rfl
  | a :: b :: l => by
    rw [windows2_cons_cons, List.map_cons, windows2_map_fst (b :: l)]
    rfl

/-- With at least two events the `titles` map is nonempty, so the tally
returns a value (in Rust: the `.unwrap()` succeeds). -/
theorem tally_categories_isSome (events : List UpdateEvent)
    (h2 : 2 ≤ events.length) : (tally_categories events).isSome = true := by
  have hne : (tallyMaps events).1 ≠ [] := by
    rw [tallyMaps_eq]
    cases hw : windows2 events with
    | nil => exact absurd hw (windows2_ne_nil events h2)
    | cons w ws =>
      rw [List.foldl_cons]
      exact foldl_bump_ne_nil _ _ ws _ (bump_ne_nil [] _ _)
  rw [tally_categories]
  cases hm : maxEntry (tallyMaps events).1 with
  | none => exact absurd ((maxEntry_eq_none_iff _).mp hm) hne
  | some e => simp [hm]

theorem tally_categories_none_of_short (events : List UpdateEvent)
    (h : events.length < 2) : tally_categories events = none := by
  rw [tally_categories, tallyMaps_eq, windows2_nil_of_short events h]
  rfl

/-! ## Facts about the timestamp sort -/

theorem length_insertByTs (e : UpdateEvent) :
    ∀ l : List UpdateEvent, (insertByTs e l).length = l.length + 1
  | [] => rfl
  | x :: xs => by
    by_cases h : e.timestamp < x.timestamp <;>
      simp [insertByTs, h, length_insertByTs e xs]

theorem length_sortByTs (l : List UpdateEvent) :
    (sortByTs l).length = l.length := by
  suffices h : ∀ (l acc : List UpdateEvent),
      (l.foldl (fun a e => insertByTs e a) acc).length = acc.length + l.length by
    simpa using h l []
  intro l
  induction l with
  | nil => intro acc; simp
  | cons e l ih =>
    intro acc
    rw [List.foldl_cons, ih, length_insertByTs]
    simp only [List.length_cons]
    omega

theorem head?_insertByTs (e : UpdateEvent) (l : List UpdateEvent) :
    (insertByTs e l).head? = some e ∨ (insertByTs e l).head? = l.head? := by
  cases l with
  | nil => left; rfl
  | cons x xs =>
    by_cases h : e.timestamp < x.timestamp
    · left; simp [insertByTs, h]
    · right; simp [insertByTs, h]

theorem chain'_insertByTs (e : UpdateEvent) :
    ∀ l : List UpdateEvent,
    List.Chain' (fun a b => a.timestamp ≤ b.timestamp) l →
    List.Chain' (fun a b => a.timestamp ≤ b.timestamp) (insertByTs e l)
  | [], _ => List.chain'_singleton e
  | x :: xs, h => by
    by_cases hlt : e.timestamp < x.timestamp
    · rw [insertByTs, if_pos hlt]
      exact List.chain'_cons.mpr ⟨Int.le_of_lt hlt, h⟩
    · rw [insertByTs, if_neg hlt]
      obtain ⟨hhead, htail⟩ := List.chain'_cons'.mp h
      refine List.chain'_cons'.mpr ⟨?_, chain'_insertByTs e xs htail⟩
      intro y hy
      rcases head?_insertByTs e xs with hcase | hcase
      · rw [hcase] at hy
        obtain rfl : e = y := by simpa using hy
        exact Int.not_lt.mp hlt
      · rw [hcase] at hy
        exact hhead y hy

theorem chain'_sortByTs (l : List UpdateEvent) :
    List.Chain' (fun a b => a.timestamp ≤ b.timestamp) (sortByTs l) := by
  suffices h : ∀ (l acc : List UpdateEvent),
      List.Chain' (fun a b => a.timestamp ≤ b.timestamp) acc →
      List.Chain' (fun a b => a.timestamp ≤ b.timestamp)
        (l.foldl (fun a e => insertByTs e a) acc) from
    h l [] List.chain'_nil
  intro l
  induction l with
  | nil => intro acc hacc; simpa using hacc
  | cons e l ih =>
    intro acc hacc
    rw [List.foldl_cons]
    exact ih _ (chain'_insertByTs e acc hacc)

theorem chain'_windows2 {α : Type} (R : α → α → Prop) :
    ∀ l : List α, List.Chain' R l → ∀ w ∈ windows2 l, R w.1 w.2
  | [], _, w, hw => by simp [windows2] at hw
  | [_], _, w, hw => by simp [windows2] at hw
  | a :: b :: l, h, w, hw => by
    rw [windows2_cons_cons] at hw
    rcases List.mem_cons.mp hw with hw' | hw'
    · subst hw'
      exact (List.chain'_cons.mp h).1
    · exact chain'_windows2 R (b :: l) (List.chain'_cons.mp h).2 w hw'

/-! ## Claim C10 — the offline path cannot hit the tally panic -/

/-- Claim C10: `tally_categories` yields no value — in Rust the `.unwrap()` on
the max over the empty `titles` map panics — when given fewer than two
events. Whenever `handle_stream_offline` reaches the tally, its argument (the
non-empty recorded events plus the appended synthetic terminal, sorted by
timestamp) has length at least 2 and ascending timestamps, so the tally
returns a value, the handler completes, and every pairwise elapsed duration
is non-negative before its cast to `u64`. -/
theorem offline_tally_no_panic :
    (∀ events : List UpdateEvent, events.length < 2 →
      tally_categories events = none) ∧
    (∀ (st : EngineState) (user_id : String) (ts : Int) (rt : RtStream),
      alookup st.streams user_id = some rt → rt.events ≠ [] →
      2 ≤ (sortByTs (rt.events ++ [⟨rt.title, rt.category, ts⟩])).length ∧
      List.Chain' (fun a b => a.timestamp ≤ b.timestamp)
        (sortByTs (rt.events ++ [⟨rt.title, rt.category, ts⟩])) ∧
      (∀ w ∈ windows2 (sortByTs (rt.events ++ [⟨rt.title, rt.category, ts⟩])),
        0 ≤ w.2.timestamp - w.1.timestamp) ∧
      (tally_categories
        (sortByTs (rt.events ++ [⟨rt.title, rt.category, ts⟩]))).isSome = true ∧
      (handle_stream_offline st user_id ts).isSome = true) := by
  refine ⟨tally_categories_none_of_short, ?_⟩
  intro st user_id ts rt hrt hne
  have hlen : 2 ≤ (sortByTs (rt.events ++ [⟨rt.title, rt.category, ts⟩])).length := by
    rw [length_sortByTs, List.length_append]
    have h1 : 0 < rt.events.length := List.length_pos.mpr hne
    simp only [List.length_singleton]
    omega
  have hchain := chain'_sortByTs (rt.events ++ [⟨rt.title, rt.category, ts⟩])
  have hsome := tally_categories_isSome _ hlen
  refine ⟨hlen, hchain, ?_, hsome, ?_⟩
  · intro w hw
    have hle := chain'_windows2 _ _ hchain w hw
    omega
  · obtain ⟨p, hp⟩ := Option.isSome_iff_exists.mp hsome
    obtain ⟨t, cats⟩ := p
    simp [handle_stream_offline, hrt, hne, hp]

/-- Claim C10 witness: the tally yields nothing on an empty event list, and a
concrete offline on a one-event runtime stream completes. -/
theorem offline_tally_no_panic_witness :
    tally_categories [] = none ∧
    (handle_stream_offline
      ⟨[], [("42", ⟨"s1", "42", "alice", "Alice", "T", "G", [⟨"T", "G", 0⟩],
        0, 0, 7, "img"⟩)], []⟩ "42" 30).isSome = true := by
  refine ⟨offline_tally_no_panic.1 [] (by norm_num), ?_⟩
  exact (offline_tally_no_panic.2
    ⟨[], [("42", ⟨"s1", "42", "alice", "Alice", "T", "G", [⟨"T", "G", 0⟩],
      0, 0, 7, "img"⟩)], []⟩ "42" 30
    ⟨"s1", "42", "alice", "Alice", "T", "G", [⟨"T", "G", 0⟩], 0, 0, 7, "img"⟩
    rfl (by simp)).2.2.2.2

/-! ## Claim C2 — pairwise credit to the earlier event only -/

/-- Claim C2: for every event list of length at least 2 the tally walks the
consecutive pairs and credits each window's elapsed seconds to the earlier
event's title and category only: a key's tally, in either map, is exactly the
summed elapsed of the windows it opens; a key whose only occurrence is the
final (synthetic terminal) event gets no entry at all; and the returned title
is one whose tallied duration is maximal. -/
theorem tally_pairwise_credit (events : List UpdateEvent)
    (h2 : 2 ≤ events.length) :
    ∃ t cats, tally_categories events = some (t, cats) ∧
      cats = (tallyMaps events).2 ∧
      (∀ k, alookup (tallyMaps events).2 k =
        (if ∃ w ∈ windows2 events, w.1.category = k
         then some ((((windows2 events).filter fun w => w.1.category = k).map
           fun w => elapsedU64 w.1 w.2).sum)
         else none)) ∧
      (∀ k, alookup (tallyMaps events).1 k =
        (if ∃ w ∈ windows2 events, w.1.title = k
         then some ((((windows2 events).filter fun w => w.1.title = k).map
           fun w => elapsedU64 w.1 w.2).sum)
         else none)) ∧
      (∀ k, (alookup (tallyMaps events).1 k).isSome = true →
        k ∈ events.dropLast.map UpdateEvent.title) ∧
      (∃ v, (t, v) ∈ (tallyMaps events).1 ∧
        ∀ p ∈ (tallyMaps events).1, p.2 ≤ v) := by
  have htitle : ∀ k, alookup (tallyMaps events).1 k =
      (if ∃ w ∈ windows2 events, w.1.title = k
       then some ((((windows2 events).filter fun w => w.1.title = k).map
         fun w => elapsedU64 w.1 w.2).sum)
       else none) := by
    intro k
    rw [tallyMaps_eq]
    have hgen := alookup_foldl_bump (fun w => w.1.title)
      (fun w => elapsedU64 w.1 w.2) (windows2 events) [] k
    simp only [alookup_nil, Option.isSome_none, Bool.false_eq_true, or_false,
      Option.getD_none, Nat.zero_add] at hgen
    exact hgen
  have hcat : ∀ k, alookup (tallyMaps events).2 k =
      (if ∃ w ∈ windows2 events, w.1.category = k
       then some ((((windows2 events).filter fun w => w.1.category = k).map
         fun w => elapsedU64 w.1 w.2).sum)
       else none) := by
    intro k
    rw [tallyMaps_eq]
    have hgen := alookup_foldl_bump (fun w => w.1.category)
      (fun w => elapsedU64 w.1 w.2) (windows2 events) [] k
    simp only [alookup_nil, Option.isSome_none, Bool.false_eq_true, or_false,
      Option.getD_none, Nat.zero_add] at hgen
    exact hgen
  obtain ⟨p, hp⟩ := Option.isSome_iff_exists.mp (tally_categories_isSome events h2)
  obtain ⟨t, cats⟩ := p
  have hme : ∃ e, maxEntry (tallyMaps events).1 = some e ∧ e.1 = t ∧
      (tallyMaps events).2 = cats := by
    simp only [tally_categories] at hp
    cases hmx : maxEntry (tallyMaps events).1 with
    | none =>
      rw [hmx] at hp
      simp at hp
    | some e =>
      rw [hmx] at hp
      simp at hp
      exact ⟨e, rfl, hp.1, hp.2⟩
  obtain ⟨⟨kmax, vmax⟩, hmx, hkt, hcats⟩ := hme
  obtain ⟨hmem, hbound⟩ := maxEntry_spec _ _ _ hmx
  refine ⟨t, cats, hp, hcats.symm, hcat, htitle, ?_, ?_⟩
  · intro k hk
    rw [htitle k] at hk
    by_cases hex : ∃ w ∈ windows2 events, w.1.title = k
    · obtain ⟨w, hw, hwt⟩ := hex
      have hfst : w.1 ∈ (windows2 events).map Prod.fst :=
        List.mem_map_of_mem Prod.fst hw
      rw [windows2_map_fst] at hfst
      exact List.mem_map.mpr ⟨w.1, hfst, hwt⟩
    · rw [if_neg hex] at hk
      simp at hk
  · subst hkt
    exact ⟨vmax, hmem, hbound⟩

/-- Claim C2 witness: a concrete three-event list. -/
theorem tally_pairwise_credit_witness :
    2 ≤ ([⟨"a", "A", 0⟩, ⟨"b", "B", 10⟩, ⟨"c", "C", 25⟩] :
      List UpdateEvent).length ∧
    ∃ t cats,
      tally_categories [⟨"a", "A", 0⟩, ⟨"b", "B", 10⟩, ⟨"c", "C", 25⟩] =
        some (t, cats) := by
  refine ⟨by norm_num, ?_⟩
  obtain ⟨t, cats, h, -⟩ := tally_pairwise_credit
    [⟨"a", "A", 0⟩, ⟨"b", "B", 10⟩, ⟨"c", "C", 25⟩] (by norm_num)
  exact ⟨t, cats, h⟩

/-! ## Facts about the reconciler's `(user, event)` map -/

theorem mem_setKey {κ α : Type} [DecidableEq κ] :
    ∀ (m : List (κ × α)) (k : κ) (v : α) (p : κ × α),
    p ∈ setKey m k v → p ∈ m ∨ p = (k, v)
  | [], _, _, p, hp => by
    simp [setKey] at hp
    exact Or.inr hp
  | (k₀, v₀) :: rest, k, v, p, hp => by
    by_cases h : k₀ = k
    · rw [setKey, if_pos h] at hp
      rcases List.mem_cons.mp hp with hp' | hp'
      · subst h
        exact Or.inr (by simpa using hp')
      · exact Or.inl (List.mem_cons_of_mem _ hp')
    · rw [setKey, if_neg h] at hp
      rcases List.mem_cons.mp hp with hp' | hp'
      · exact Or.inl (by simp [hp'])
      · rcases mem_setKey rest k v p hp' with hm | hm
        · exact Or.inl (List.mem_cons_of_mem _ hm)
        · exact Or.inr hm

theorem getLast?_cons_getD {α : Type} :
    ∀ (a : α) (l : List α), (a :: l).getLast? = some (l.getLast?.getD a)
  | _, [] => rfl
  | a, b :: l => by
    rw [List.getLast?_cons_cons, getLast?_cons_getD b l]
    simp

/-- Looking up a pair in the fold that builds the `have` map yields the id of
the last enabled subscription with that pair (later entries overwrite
earlier ones, as in `HashMap::collect`). -/
theorem alookup_foldl_setKey :
    ∀ (l : List Subscription) (m : List ((String × String) × String))
      (p : String × String),
    alookup (l.foldl (fun m s => setKey m (subPair s) s.id) m) p =
      match (l.filter fun s => subPair s = p).getLast? with
      | some s => some s.id
      | none => alookup m p := by
  intro l
  induction l with
  | nil => intro m p; rfl
  | cons s l ih =>
    intro m p
    rw [List.foldl_cons, ih]
    by_cases hpair : subPair s = p
    · rw [List.filter_cons_of_pos (by simpa using hpair)]
      rw [getLast?_cons_getD]
      cases hlast : (l.filter fun s => subPair s = p).getLast? with
      | some x => simp [hlast]
      | none =>
        simp only [hlast, Option.getD_none]
        rw [← hpair, alookup_setKey_self]
    · rw [List.filter_cons_of_neg (by simpa using hpair)]
      cases hlast : (l.filter fun s => subPair s = p).getLast? with
      | some x => simp [hlast]
      | none =>
        simp only [hlast]
        exact alookup_setKey_ne m (subPair s) p s.id hpair

theorem mem_foldl_setKey :
    ∀ (l : List Subscription) (m : List ((String × String) × String))
      (p : (String × String) × String),
    p ∈ l.foldl (fun m s => setKey m (subPair s) s.id) m →
    p ∈ m ∨ ∃ s ∈ l, subPair s = p.1 ∧ s.id = p.2
  | [], _, _, hp => Or.inl hp
  | s :: l, m, p, hp => by
    rcases mem_foldl_setKey l _ p hp with hm | ⟨s', hs', hps'⟩
    · rcases mem_setKey m (subPair s) s.id p hm with hm' | hm'
      · exact Or.inl hm'
      · exact Or.inr ⟨s, List.mem_cons_self s l, by simp [hm']⟩
    · exact Or.inr ⟨s', List.mem_cons_of_mem _ hs', hps'⟩

/-! ## Claim C7 — the reconciler's three partitions -/

/-- Claim C7 counterexample: two enabled subscriptions (`"a"` then `"b"`) for
the same undesired `(user, event)` pair; only the id retained by the pair-
keyed map — the later one, `"b"` — is deleted, so the claim's "all of them
are deleted" is false. -/
theorem sync_deletes_one_id_per_duplicate_pair :
    (syncPlan [⟨"a", "enabled", "stream.online", "u"⟩,
               ⟨"b", "enabled", "stream.online", "u"⟩] []).2.2 = ["b"] := by
  rfl

theorem getLast?_eq_none_iff {α : Type} (l : List α) :
    l.getLast? = none ↔ l = [] := by
  cases l with
  | nil => simp
  | cons a l =>
    rw [getLast?_cons_getD]
    simp

/-- The components of the reconciler's plan, spelled out. -/
theorem syncPlan_eq (subs : List Subscription) (channels : List String) :
    syncPlan subs channels =
      ((subs.filter fun s => ¬ s.status = "enabled").map (·.id),
       ((wantPairs channels).dedup.filter fun e =>
         (alookup ((subs.filter fun s => s.status = "enabled").foldl
           (fun m s => setKey m (subPair s) s.id) []) e).isNone),
       (((subs.filter fun s => s.status = "enabled").foldl
           (fun m s => setKey m (subPair s) s.id) []).filter
         (fun e => ¬ e.1 ∈ (wantPairs channels).dedup)).map (·.2)) := rfl

/-- Claim C7 (amended): `sync` deletes every non-`"enabled"` subscription
first (and only such ids appear in that pass); it creates a subscription for
each desired `(channel, event)` pair with no enabled subscription (and only
desired pairs with none); every id deleted in the extra pass belongs to an
enabled subscription whose pair is undesired; but when upstream returns
several enabled subscription ids for the same undesired pair, only the last
one listed — the id the pair-keyed map retains — is deleted, not all of
them. -/
theorem sync_plan_spec (subs : List Subscription) (channels : List String) :
    (∀ s ∈ subs, ¬ s.status = "enabled" → s.id ∈ (syncPlan subs channels).1) ∧
    (∀ id ∈ (syncPlan subs channels).1,
      ∃ s ∈ subs, ¬ s.status = "enabled" ∧ s.id = id) ∧
    (∀ c ∈ channels, ∀ e ∈ desiredEvents,
      (∀ s ∈ subs, s.status = "enabled" → ¬ subPair s = (c, e)) →
      (c, e) ∈ (syncPlan subs channels).2.1) ∧
    (∀ p ∈ (syncPlan subs channels).2.1, p ∈ wantPairs channels ∧
      ∀ s ∈ subs, s.status = "enabled" → ¬ subPair s = p) ∧
    (∀ id ∈ (syncPlan subs channels).2.2, ∃ s ∈ subs,
      s.status = "enabled" ∧ s.id = id ∧ subPair s ∉ wantPairs channels) ∧
    (∀ (p : String × String) (s' : Subscription), p ∉ wantPairs channels →
      ((subs.filter fun s => s.status = "enabled").filter
        fun s => subPair s = p).getLast? = some s' →
      s'.id ∈ (syncPlan subs channels).2.2) := by
  rw [syncPlan_eq]
  refine ⟨?_, ?_, ?_, ?_, ?_, ?_⟩
  · intro s hs hstat
    exact List.mem_map.mpr ⟨s, List.mem_filter.mpr ⟨hs, by simpa using hstat⟩, rfl⟩
  · intro id hid
    obtain ⟨s, hs, hsid⟩ := List.mem_map.mp hid
    obtain ⟨hss, hstat⟩ := List.mem_filter.mp hs
    exact ⟨s, hss, by simpa using hstat, hsid⟩
  · intro c hc e he hnone
    refine List.mem_filter.mpr ⟨List.mem_dedup.mpr ?_, ?_⟩
    · exact List.mem_flatMap.mpr ⟨c, hc, List.mem_map.mpr ⟨e, he, rfl⟩⟩
    · have hfil : ((subs.filter fun s => s.status = "enabled").filter
          fun s => subPair s = (c, e)) = [] := by
        rw [List.filter_eq_nil_iff]
        intro s hs
        obtain ⟨hss, hstat⟩ := List.mem_filter.mp hs
        simpa using hnone s hss (by simpa using hstat)
      rw [alookup_foldl_setKey, hfil]
      rfl
  · intro p hp
    obtain ⟨hpd, hnone⟩ := List.mem_filter.mp hp
    refine ⟨List.mem_dedup.mp hpd, ?_⟩
    intro s hs hstat hpair
    rw [alookup_foldl_setKey] at hnone
    cases hlast : ((subs.filter fun s => s.status = "enabled").filter
        fun s => subPair s = p).getLast? with
    | some x =>
      rw [hlast] at hnone
      simp at hnone
    | none =>
      have : s ∈ ((subs.filter fun s => s.status = "enabled").filter
          fun s => subPair s = p) :=
        List.mem_filter.mpr ⟨List.mem_filter.mpr ⟨hs, by simpa using hstat⟩,
          by simpa using hpair⟩
      rw [(getLast?_eq_none_iff _).mp hlast] at this
      simp at this
  · intro id hid
    obtain ⟨e, he, heid⟩ := List.mem_map.mp hid
    obtain ⟨hem, hwant⟩ := List.mem_filter.mp he
    rcases mem_foldl_setKey _ [] e hem with hnil | ⟨s, hs, hsp, hsi⟩
    · simp at hnil
    · obtain ⟨hss, hstat⟩ := List.mem_filter.mp hs
      refine ⟨s, hss, by simpa using hstat, by rw [hsi, heid], ?_⟩
      rw [hsp]
      intro hmem
      simp at hwant
      exact hwant hmem
  · intro p s' hp hlast
    have halook : alookup ((subs.filter fun s => s.status = "enabled").foldl
        (fun m s => setKey m (subPair s) s.id) []) p = some s'.id := by
      rw [alookup_foldl_setKey, hlast]
    refine List.mem_map.mpr ⟨(p, s'.id), List.mem_filter.mpr
      ⟨alookup_mem halook, ?_⟩, rfl⟩
    simpa using fun hmem => hp (List.mem_dedup.mp hmem)

/-- Claim C7 amended witness: with two enabled subscriptions for the same
undesired pair, the id retained by the map (`"b"`, the later one) is in the
extra-delete pass. -/
theorem sync_plan_spec_witness :
    (("u", "stream.online") ∉ wantPairs []) ∧
    "b" ∈ (syncPlan [⟨"a", "enabled", "stream.online", "u"⟩,
      ⟨"b", "enabled", "stream.online", "u"⟩] []).2.2 := by
  refine ⟨by simp [wantPairs], ?_⟩
  exact (sync_plan_spec [⟨"a", "enabled", "stream.online", "u"⟩,
    ⟨"b", "enabled", "stream.online", "u"⟩] []).2.2.2.2.2 ("u", "stream.online")
    ⟨"b", "enabled", "stream.online", "u"⟩ (by simp [wantPairs]) rfl

/-! ## Facts about the `streams` table rows for one `stream_id` -/

/-- The rows of the table carrying a given `stream_id`. -/
def rowsFor (db : Db) (sid : String) : Db :=
  db.filter fun r => r.stream_id = sid

@[simp] theorem endStreamRow_stream_id (sid title : String) (ts : Int)
    (r : DbStream) : (endStreamRow sid title ts r).stream_id = r.stream_id := by
  rw [endStreamRow]
  split <;> rfl

@[simp] theorem endStreamRow_events (sid title : String) (ts : Int)
    (r : DbStream) : (endStreamRow sid title ts r).events = r.events := by
  rw [endStreamRow]
  split <;> rfl

theorem filter_map_comm {α : Type} (p : α → Bool) (f : α → α)
    (hf : ∀ a, p (f a) = p a) (hid : ∀ a, p a = false → f a = a) :
    ∀ l : List α, (l.map f).filter p = (l.filter p).map f
  | [] => rfl
  | a :: l => by
    rw [List.map_cons]
    cases hpa : p a with
    | true =>
      rw [List.filter_cons_of_pos (by rw [hf]; exact hpa),
        List.filter_cons_of_pos hpa, List.map_cons,
        filter_map_comm p f hf hid l]
    | false =>
      rw [List.filter_cons_of_neg (by rw [hf, hpa]; simp),
        List.filter_cons_of_neg (by rw [hpa]; simp),
        filter_map_comm p f hf hid l]

theorem rowsFor_update_stream (db : Db) (sid title : String) (ev : UpdateEvent) :
    rowsFor (update_stream db sid title ev) sid =
      (rowsFor db sid).map
        fun r => { r with title := title, events := r.events ++ [ev] } := by
  simp only [rowsFor, update_stream]
  rw [filter_map_comm]
  · refine List.map_congr_left ?_
    intro r hr
    have h : r.stream_id = sid := by simpa using (List.mem_filter.mp hr).2
    simp [h]
  · intro a
    by_cases h : a.stream_id = sid <;> simp [h]
  · intro a ha
    rw [if_neg]
    intro h
    rw [h] at ha
    simp at ha

theorem rowsFor_end_stream (db : Db) (sid title : String) (ts : Int) :
    rowsFor (end_stream db sid title ts) sid =
      (rowsFor db sid).map (endStreamRow sid title ts) := by
  simp only [rowsFor, end_stream]
  rw [filter_map_comm]
  · intro a
    simp
  · intro a ha
    rw [endStreamRow, if_neg]
    rintro ⟨h1, -⟩
    rw [h1] at ha
    simp at ha

theorem rowsFor_start_stream (db : Db) (sid cid title category : String)
    (mid ts : Int) :
    rowsFor (start_stream db sid cid title category mid ts) sid =
      rowsFor db sid ++
        [{ stream_id := sid, channel_id := cid, title := title,
           started_at := ts, last_updated := ts, message_id := mid,
           ended_at := none, events := [⟨title, category, ts⟩] }] := by
  simp only [rowsFor, start_stream, List.filter_append]
  congr 1
  simp

/-! ## The state reached after a run of `channel.update` deliveries -/

/-- The state component of `runUpdates` (the effect accumulator does not feed
back into the state). -/
theorem runUpdates_fst (user_id : String) :
    ∀ (updates : List (String × String × Int)) (st : EngineState)
      (eff : List Effect),
    (updates.foldl
      (fun acc u =>
        let r := handle_channel_update acc.1 user_id u.1 u.2.1 u.2.2
        (r.1, acc.2 ++ r.2))
      (st, eff)).1 =
    updates.foldl
      (fun s u => (handle_channel_update s user_id u.1 u.2.1 u.2.2).1) st
  | [], _, _ => rfl
  | u :: us, st, eff => by
    rw [List.foldl_cons, List.foldl_cons]
    exact runUpdates_fst user_id us _ _

/-- One `channel.update` on a live stream: the runtime entry gains the event
and keeps its id, and the single matching row gains the event. -/
theorem handle_channel_update_live (st : EngineState) (user_id : String)
    (rt : RtStream) (title category : String) (ts : Int)
    (hrt : alookup st.streams user_id = some rt) :
    (handle_channel_update st user_id title category ts).1 =
      { st with
        streams := setKey st.streams user_id
          { rt with
            title := title, category := category, last_updated := ts,
            events := rt.events ++ [⟨title, category, ts⟩] },
        db := update_stream st.db rt.id title ⟨title, category, ts⟩ } := by
  rw [handle_channel_update, hrt]

/-- Invariant carried through a fold of `channel.update` deliveries for one
broadcaster: the runtime entry accumulates the events in delivery order and
the unique matching persistent row accumulates the same events. -/
theorem updates_fold_inv (user_id sid : String) :
    ∀ (updates : List (String × String × Int)) (st : EngineState)
      (rt : RtStream) (row : DbStream),
    alookup st.streams user_id = some rt → rt.id = sid →
    rowsFor st.db sid = [row] →
    ∃ rt' row',
      alookup (updates.foldl
        (fun s u => (handle_channel_update s user_id u.1 u.2.1 u.2.2).1)
        st).streams user_id = some rt' ∧
      rt'.id = sid ∧
      rt'.events = rt.events ++ updates.map (fun u => ⟨u.1, u.2.1, u.2.2⟩) ∧
      rowsFor (updates.foldl
        (fun s u => (handle_channel_update s user_id u.1 u.2.1 u.2.2).1)
        st).db sid = [row'] ∧
      row'.events = row.events ++ updates.map (fun u => ⟨u.1, u.2.1, u.2.2⟩)
  | [], st, rt, row, hrt, hid, hrow =>
    ⟨rt, row, by simpa using hrt, hid, by simp, by simpa using hrow, by simp⟩
  | u :: us, st, rt, row, hrt, hid, hrow => by
    rw [List.foldl_cons, handle_channel_update_live st user_id rt u.1 u.2.1
      u.2.2 hrt]
    obtain ⟨rt', row', h1, h2, h3, h4, h5⟩ :=
      updates_fold_inv user_id sid us
        { st with
          streams := setKey st.streams user_id
            { rt with
              title := u.1, category := u.2.1, last_updated := u.2.2,
              events := rt.events ++ [⟨u.1, u.2.1, u.2.2⟩] },
          db := update_stream st.db rt.id u.1 ⟨u.1, u.2.1, u.2.2⟩ }
        { rt with
          title := u.1, category := u.2.1, last_updated := u.2.2,
          events := rt.events ++ [⟨u.1, u.2.1, u.2.2⟩] }
        { row with title := u.1, events := row.events ++ [⟨u.1, u.2.1, u.2.2⟩] }
        (alookup_setKey_self _ _ _) hid
        (by
          have hdb : rowsFor (update_stream st.db rt.id u.1 ⟨u.1, u.2.1, u.2.2⟩)
              sid =
              [{ row with
                 title := u.1,
                 events := row.events ++ [⟨u.1, u.2.1, u.2.2⟩] }] := by
            rw [hid, rowsFor_update_stream, hrow]
            rfl
          simpa using hdb)
    refine ⟨rt', row', h1, h2, ?_, h4, ?_⟩
    · rw [h3]
      simp
    · rw [h5]
      simp

/-- A fresh `stream.online` (no pre-fetched stream, no preload) for a tracked,
not-yet-live channel: the runtime entry is created with the initial event at
the verification timestamp and `start_stream` is written. -/
theorem handle_stream_online_fresh (env : Env) (st : EngineState)
    (user_id : String) (ch : TwitchChannel) (tw : TwitchStream)
    (stored : Channel) (ts : Int)
    (hch : env.getChannel user_id = some ch)
    (htw : env.getStream user_id = some tw)
    (hnr : alookup st.streams ch.id = none)
    (hstored : alookup st.channels ch.id = some stored) :
    ∃ st₁ eff₁,
      handle_stream_online env st user_id none none ts = .ok (st₁, eff₁) ∧
      st₁.streams = setKey st.streams ch.id
        { id := tw.id, channel_id := ch.id, user_login := ch.login,
          user_name := ch.display_name, title := tw.title,
          category := tw.game_name, events := [⟨tw.title, tw.game_name, ts⟩],
          started_at := tw.started_at, last_updated := tw.started_at,
          message_id := env.freshMessageId,
          profile_image_url := ch.profile_image_url } ∧
      st₁.db = start_stream st.db tw.id ch.id tw.title tw.game_name
        env.freshMessageId tw.started_at := by
  by_cases hd : ch.login ≠ stored.name ∨ ch.display_name ≠ stored.display_name
  · have hrun : handle_stream_online env st user_id none none ts =
        .ok ({ channels := setKey st.channels ch.id
                 { stored with
                   name := ch.login, display_name := ch.display_name },
               streams := setKey st.streams ch.id
                 { id := tw.id, channel_id := ch.id, user_login := ch.login,
                   user_name := ch.display_name, title := tw.title,
                   category := tw.game_name,
                   events := [⟨tw.title, tw.game_name, ts⟩],
                   started_at := tw.started_at, last_updated := tw.started_at,
                   message_id := env.freshMessageId,
                   profile_image_url := ch.profile_image_url },
               db := start_stream st.db tw.id ch.id tw.title tw.game_name
                 env.freshMessageId tw.started_at },
             [.dbUpdateChannel ch.id, .chatSend env.freshMessageId,
              .dbStartStream tw.id]) := by
      simp [handle_stream_online, hch, htw, hnr, hstored, hd]
    exact ⟨_, _, hrun, rfl, rfl⟩
  · have hrun : handle_stream_online env st user_id none none ts =
        .ok ({ channels := st.channels,
               streams := setKey st.streams ch.id
                 { id := tw.id, channel_id := ch.id, user_login := ch.login,
                   user_name := ch.display_name, title := tw.title,
                   category := tw.game_name,
                   events := [⟨tw.title, tw.game_name, ts⟩],
                   started_at := tw.started_at, last_updated := tw.started_at,
                   message_id := env.freshMessageId,
                   profile_image_url := ch.profile_image_url },
               db := start_stream st.db tw.id ch.id tw.title tw.game_name
                 env.freshMessageId tw.started_at },
             [.chatSend env.freshMessageId, .dbStartStream tw.id]) := by
      simp [handle_stream_online, hch, htw, hnr, hstored, hd]
    exact ⟨_, _, hrun, rfl, rfl⟩

/-! ## Claim C1 — Online, k × Update, Offline: k + 1 persisted events -/

/-- Claim C1: starting with no runtime stream for a tracked channel and no
row for the stream id, processing one `stream.online`, then `k`
`channel.update`s, then one `stream.offline`, with strictly increasing
timestamps, leaves exactly one persistent row for that stream id whose events
list is the initial `{title, category, start-timestamp}` event written by
`start_stream` followed by the `k` events appended by `update_stream`, in
delivery order — `k + 1` events in total. -/
theorem online_updates_offline_event_count (env : Env) (st : EngineState)
    (user_id sid : String) (ch : TwitchChannel) (tw : TwitchStream)
    (stored : Channel) (updates : List (String × String × Int)) (ts₀ ts₁ : Int)
    (hch : env.getChannel user_id = some ch) (hchid : ch.id = user_id)
    (htw : env.getStream user_id = some tw) (hsid : tw.id = sid)
    (hnr : alookup st.streams user_id = none)
    (hstored : alookup st.channels user_id = some stored)
    (hdb : rowsFor st.db sid = [])
    (_hmono : List.Chain' (· < ·)
      (ts₀ :: (updates.map fun u => u.2.2) ++ [ts₁])) :
    ∃ st₁ eff₁,
      handle_stream_online env st user_id none none ts₀ = .ok (st₁, eff₁) ∧
      ∃ st₃ eff₃,
        handle_stream_offline (runUpdates st₁ user_id updates).1 user_id ts₁ =
          some (st₃, eff₃) ∧
        ∃ row, rowsFor st₃.db sid = [row] ∧
          row.events = ⟨tw.title, tw.game_name, tw.started_at⟩ ::
            (updates.map fun u => ⟨u.1, u.2.1, u.2.2⟩) ∧
          row.events.length = updates.length + 1 := by
  subst hchid
  subst hsid
  obtain ⟨st₁, eff₁, hrun, hstreams, hdb1⟩ :=
    handle_stream_online_fresh env st ch.id ch tw stored ts₀ hch htw hnr hstored
  have hrt1 : alookup st₁.streams ch.id = some
      { id := tw.id, channel_id := ch.id, user_login := ch.login,
        user_name := ch.display_name, title := tw.title,
        category := tw.game_name, events := [⟨tw.title, tw.game_name, ts₀⟩],
        started_at := tw.started_at, last_updated := tw.started_at,
        message_id := env.freshMessageId,
        profile_image_url := ch.profile_image_url } := by
    rw [hstreams]
    exact alookup_setKey_self _ _ _
  have hrow1 : rowsFor st₁.db tw.id =
      [{ stream_id := tw.id, channel_id := ch.id, title := tw.title,
         started_at := tw.started_at, last_updated := tw.started_at,
         message_id := env.freshMessageId, ended_at := none,
         events := [⟨tw.title, tw.game_name, tw.started_at⟩] }] := by
    rw [hdb1, rowsFor_start_stream, hdb]
    rfl
  obtain ⟨rt', row', h1, h2, h3, h4, h5⟩ :=
    updates_fold_inv ch.id tw.id updates st₁ _ _ hrt1 rfl hrow1
  have hrw : (runUpdates st₁ ch.id updates).1 =
      updates.foldl
        (fun s u => (handle_channel_update s ch.id u.1 u.2.1 u.2.2).1) st₁ := by
    rw [runUpdates]
    exact runUpdates_fst ch.id updates st₁ []
  have hne : ¬ rt'.events = [] := by
    rw [h3]
    simp
  have hlen : 2 ≤ (sortByTs (rt'.events ++
      [⟨rt'.title, rt'.category, ts₁⟩])).length := by
    rw [length_sortByTs, List.length_append, h3]
    simp
  obtain ⟨p, htc⟩ := Option.isSome_iff_exists.mp (tally_categories_isSome _ hlen)
  obtain ⟨title, cats⟩ := p
  refine ⟨st₁, eff₁, hrun, ?_⟩
  rw [hrw]
  generalize hst : updates.foldl
    (fun s u => (handle_channel_update s ch.id u.1 u.2.1 u.2.2).1) st₁ = st₂
    at h1 h4
  have hoff : handle_stream_offline st₂ ch.id ts₁ =
      some ({ st₂ with
              streams := removeKey st₂.streams ch.id,
              db := end_stream st₂.db rt'.id title ts₁ },
            [.chatEdit rt'.message_id, .dbEndStream rt'.id]) := by
    simp [handle_stream_offline, h1, hne, htc]
  refine ⟨_, _, hoff, endStreamRow tw.id title ts₁ row', ?_, ?_, ?_⟩
  · show rowsFor (end_stream st₂.db rt'.id title ts₁) tw.id = _
    rw [h2, rowsFor_end_stream, h4]
    rfl
  · rw [endStreamRow_events, h5]
    rfl
  · rw [endStreamRow_events, h5]
    simp

/-- Claim C1 witness: one online, one update, one offline with timestamps
5 < 10 < 20 leave a single row for `"s1"` with two events. -/
theorem online_updates_offline_event_count_witness :
    rowsFor ([] : Db) "s1" = [] ∧
    ∃ st₁ eff₁,
      handle_stream_online
        ⟨fun _ => some ⟨"42", "alice", "Alice", "img"⟩,
         fun _ => some ⟨"s1", "42", "G", "T", 0⟩, 7⟩
        ⟨[("42", ⟨"alice", "Alice", "42"⟩)], [], []⟩ "42" none none 5 =
        .ok (st₁, eff₁) ∧
      ∃ st₃ eff₃,
        handle_stream_offline (runUpdates st₁ "42" [("T2", "G2", 10)]).1
          "42" 20 = some (st₃, eff₃) ∧
        ∃ row, rowsFor st₃.db "s1" = [row] ∧ row.events.length = 2 := by
  refine ⟨rfl, ?_⟩
  obtain ⟨st₁, eff₁, h1, st₃, eff₃, h3, row, hrow, hev, hlen⟩ :=
    online_updates_offline_event_count
      ⟨fun _ => some ⟨"42", "alice", "Alice", "img"⟩,
       fun _ => some ⟨"s1", "42", "G", "T", 0⟩, 7⟩
      ⟨[("42", ⟨"alice", "Alice", "42"⟩)], [], []⟩ "42" "s1"
      ⟨"42", "alice", "Alice", "img"⟩ ⟨"s1", "42", "G", "T", 0⟩
      ⟨"alice", "Alice", "42"⟩ [("T2", "G2", 10)] 5 20
      rfl rfl rfl rfl rfl rfl rfl
      (by simp only [List.map_cons, List.map_nil, List.cons_append,
        List.nil_append, List.chain'_cons, List.chain'_singleton, and_true]
          norm_num)
  exact ⟨st₁, eff₁, h1, st₃, eff₃, h3, row, hrow, by simpa using hlen⟩

end Stitch
